import Mathlib

/-!
Shallow embedding of `lldb_pyutils.py`, an lldb extension script that
reconstructs a Python-level backtrace (`py3bt`) from the native frames of
the selected thread.  The host debugger (lldb) is modelled abstractly: an
`SBValue` is a finite tree of named children carrying the results the host
would return (`GetValueAsUnsigned`, `GetValue`), and frames, threads,
processes, targets and debuggers are records of the query results the
script consumes.  Host interactions are additionally recorded as a trace
of `HostOp` operations so that effects on debugger state can be stated.
-/

/-- Model of `lldb.SBValue`: the unsigned interpretation of the value
(`GetValueAsUnsigned`), its string rendering (`GetValue`, `None` modelled
as `none`), and its named children (`GetChildMemberWithName`). -/
inductive SBValue where
  | mk (unsigned : Nat) (value : Option String) (children : List (String × SBValue))

/-- `SBValue.GetValueAsUnsigned()`. -/
def SBValue.GetValueAsUnsigned : SBValue → Nat
  | .mk u _ _ => u

/-- `SBValue.GetValue()`: `none` models Python `None`. -/
def SBValue.GetValue : SBValue → Option String
  | .mk _ v _ => v

/-- `SBValue.GetChildMemberWithName(name)`; a missing child yields lldb's
invalid value (unsigned 0, no string rendering, no children). -/
def SBValue.GetChildMemberWithName : SBValue → String → SBValue
  | .mk _ _ cs, n =>
    match cs.lookup n with
    | some v => v
    | none => SBValue.mk 0 none []

/-- Model of `lldb.SBFrame`: the host-supplied query results the script
uses. -/
structure SBFrame where
  GetFunctionName : String
  GetFrameID : Nat
  GetValueForVariablePath : String → SBValue
  EvaluateExpression : String → SBValue

/-- Model of `lldb.SBThread`. -/
structure SBThread where
  GetNumFrames : Nat
  GetFrameAtIndex : Nat → SBFrame

/-- Model of `lldb.SBProcess`. -/
structure SBProcess where
  GetSelectedThread : SBThread

/-- Model of `lldb.SBTarget`. -/
structure SBTarget where
  GetProcess : SBProcess

/-- Model of `lldb.SBDebugger`. -/
structure SBDebugger where
  GetSelectedTarget : SBTarget

/-- `class PyObjectPtr(object)`: wraps an `SBValue` (`self._SBValue = sbval`). -/
structure PyObjectPtr where
  _SBValue : SBValue

/-- `class NullPyObjectPtr(RuntimeError)`: the exception raised by
`PyObjectPtr.field` on a null pointer; it carries the offending pointer
(`raise NullPyObjectPtr(self)`). -/
structure NullPyObjectPtr where
  ptr : PyObjectPtr

/-- `PyObjectPtr.is_null`: `0 == long(self._SBValue.GetValueAsUnsigned())`. -/
def PyObjectPtr.is_null (p : PyObjectPtr) : Bool :=
  0 == p._SBValue.GetValueAsUnsigned

/-- `PyObjectPtr.field(name)`: raises `NullPyObjectPtr(self)` when the
wrapped value is null, otherwise returns
`self._SBValue.GetChildMemberWithName(name)`.  The raise is modelled as
`Except.error`. -/
def PyObjectPtr.field (p : PyObjectPtr) (name : String) : Except NullPyObjectPtr SBValue :=
  if p.is_null then Except.error ⟨p⟩
  else Except.ok (p._SBValue.GetChildMemberWithName name)

/-- `Evaluate_PyObject_AsUTF8(fr, obj)`:
`fr.EvaluateExpression('PyUnicode_AsUTF8(' + obj + ')')`. -/
def Evaluate_PyObject_AsUTF8 (fr : SBFrame) (obj : String) : SBValue :=
  fr.EvaluateExpression ("PyUnicode_AsUTF8(" ++ obj ++ ")")

/-- `Evaluate_LineNo(fr, obj)`:
`fr.EvaluateExpression('PyFrame_GetLineNumber(' + obj + ')')`. -/
def Evaluate_LineNo (fr : SBFrame) (obj : String) : SBValue :=
  fr.EvaluateExpression ("PyFrame_GetLineNumber(" ++ obj ++ ")")

/-- `is_evalframeex(frame)`: `frame.GetFunctionName() == 'PyEval_EvalFrameEx'`. -/
def is_evalframeex (frame : SBFrame) : Bool :=
  frame.GetFunctionName == "PyEval_EvalFrameEx"

/-- Python `str.find` on a list of characters: index of the first
occurrence, `-1` when absent. -/
def pyFind (c : Char) : List Char → Int
  | [] => -1
  | x :: xs =>
    if x == c then 0
    else
      let r := pyFind c xs
      if r < 0 then -1 else r + 1

/-- Python `str.rfind` on a list of characters: index of the last
occurrence, `-1` when absent. -/
def pyRfind (c : Char) : List Char → Int
  | [] => -1
  | x :: xs =>
    let r := pyRfind c xs
    if 0 ≤ r then r + 1
    else if x == c then 0 else -1

/-- Normalisation of a Python slice endpoint: negative indices count from
the end (clamped at 0), non-negative ones are clamped at the length. -/
def pyNormIdx (len : Nat) (i : Int) : Nat :=
  if i < 0 then ((len : Int) + i).toNat else min i.toNat len

/-- Python slice `s[a:b]` (step 1) on a list of characters. -/
def pySlice (s : List Char) (a b : Int) : List Char :=
  (s.take (pyNormIdx s.length b)).drop (pyNormIdx s.length a)

/-- `gist_extr(s)`: `s[s.find('"') + 1 : s.rfind('"')]`. -/
def gist_extr (s : List Char) : List Char :=
  pySlice s (pyFind '"' s + 1) (pyRfind '"' s)

/-- Python truthiness of an optional string: `None` and `''` are falsy. -/
def pyFalsy (v : Option String) : Bool :=
  match v with
  | none => true
  | some s => s == ""

/-- Rendering of `x if x else "."` inside the `format` call of `py3bt`:
a falsy value prints as the single character `"."`. -/
def fmt_or_dot (v : Option String) : String :=
  match v with
  | none => "."
  | some s => if s == "" then "." else s

/-- The line printed by `py3bt` for one interpreted frame:
`"frame #{}: {} - {}:{}".format(id, filename or ".", name or ".", lineno or ".")`. -/
def mkLine (fid : Nat) (filename name lineno : Option String) : String :=
  "frame #" ++ toString fid ++ ": " ++ fmt_or_dot filename ++ " - " ++
    fmt_or_dot name ++ ":" ++ fmt_or_dot lineno

/-- One host interaction performed through the lldb API.  The `Set*` and
`HandleCommand` operations mutate debugger state; the script only ever
issues the query operations, which is what the frame-effect claims are
about. -/
inductive HostOp where
  | GetSelectedTarget
  | GetProcess
  | GetSelectedThread
  | GetNumFrames
  | GetFrameAtIndex (i : Nat)
  | GetFunctionName
  | GetFrameID
  | GetValueForVariablePath (path : String)
  | GetChildMemberWithName (name : String)
  | GetValueAsUnsigned
  | GetValue
  | EvaluateExpression (e : String)
  | SetSelectedTarget (i : Nat)
  | SetSelectedThread (i : Nat)
  | HandleCommand (s : String)
  deriving DecidableEq

/-- Whether a host operation mutates debugger state. -/
def HostOp.mutates : HostOp → Bool
  | .SetSelectedTarget _ => true
  | .SetSelectedThread _ => true
  | .HandleCommand _ => true
  | _ => false

/-- The mutable state of the host debugger and of the loaded script
module: the current selections, the module-level `CMDS` binding, and the
set of commands registered in the host. -/
structure World where
  selectedTargetIdx : Nat
  selectedThreadIdx : Nat
  cmds : List (String × String)
  registered : List String

/-- Effect of one host operation on debugger state: queries leave the
state unchanged, `Set*` update the selection, `HandleCommand` registers
the command text. -/
def applyOp (w : World) (op : HostOp) : World :=
  match op with
  | .SetSelectedTarget i => { w with selectedTargetIdx := i }
  | .SetSelectedThread i => { w with selectedThreadIdx := i }
  | .HandleCommand s => { w with registered := w.registered ++ [s] }
  | _ => w

/-- Everything the body of `py3bt`'s loop does for one frame: the lines it
prints, the expression strings it passes to `EvaluateExpression`, the
`NullPyObjectPtr` it raises (aborting the command), and the trace of host
operations it performs, in order. -/
structure FrameEffect where
  printed : List String
  evaluated : List String
  raised : Option NullPyObjectPtr
  ops : List HostOp

/-- The body of `py3bt`'s loop for one frame `fr` (source lines 159-172):
when `is_evalframeex(fr)`, read `f` via `GetValueForVariablePath`, wrap it
in `PyObjectPtr`, fetch `f_code`, `co_filename`, `co_name` via `field`
(each of which may raise `NullPyObjectPtr`), evaluate the line number via
`Evaluate_LineNo`, and print the formatted line. -/
def py3bt_visit (fr : SBFrame) : FrameEffect :=
  if is_evalframeex fr then
    let f : PyObjectPtr := ⟨fr.GetValueForVariablePath "f"⟩
    match f.field "f_code" with
    | Except.error e =>
      { printed := [], evaluated := [], raised := some e,
        ops := [.GetFunctionName, .GetValueForVariablePath "f", .GetValueAsUnsigned] }
    | Except.ok fc =>
      let f_code : PyObjectPtr := ⟨fc⟩
      match f_code.field "co_filename" with
      | Except.error e =>
        { printed := [], evaluated := [], raised := some e,
          ops := [.GetFunctionName, .GetValueForVariablePath "f", .GetValueAsUnsigned,
                  .GetChildMemberWithName "f_code", .GetValueAsUnsigned] }
      | Except.ok fnv =>
        let filename := fnv.GetValue
        match f_code.field "co_name" with
        | Except.error e =>
          { printed := [], evaluated := [], raised := some e,
            ops := [.GetFunctionName, .GetValueForVariablePath "f", .GetValueAsUnsigned,
                    .GetChildMemberWithName "f_code", .GetValueAsUnsigned,
                    .GetChildMemberWithName "co_filename", .GetValue, .GetValueAsUnsigned] }
        | Except.ok nmv =>
          let name := nmv.GetValue
          let lineno := (Evaluate_LineNo fr "f").GetValue
          { printed := [mkLine fr.GetFrameID filename name lineno],
            evaluated := ["PyFrame_GetLineNumber(" ++ "f" ++ ")"],
            raised := none,
            ops := [.GetFunctionName, .GetValueForVariablePath "f", .GetValueAsUnsigned,
                    .GetChildMemberWithName "f_code", .GetValueAsUnsigned,
                    .GetChildMemberWithName "co_filename", .GetValue, .GetValueAsUnsigned,
                    .GetChildMemberWithName "co_name", .GetValue,
                    .EvaluateExpression ("PyFrame_GetLineNumber(" ++ "f" ++ ")"), .GetValue,
                    .GetFrameID] }
  else { printed := [], evaluated := [], raised := none, ops := [.GetFunctionName] }

/-- Result of a run of `py3bt`: printed lines and evaluated expressions
tagged with the loop index of the frame that produced them, the frame
indices visited in order, the uncaught `NullPyObjectPtr` (if the run
aborted), and the full host-operation trace. -/
structure RunResult where
  lines : List (Nat × String)
  evals : List (Nat × String)
  visited : List Nat
  raised : Option NullPyObjectPtr
  ops : List HostOp

/-- The loop `for i in range(num_frames - 1)` of `py3bt`, over an explicit
list of indices: each iteration fetches the frame and runs the body; a
raised `NullPyObjectPtr` propagates, ending the loop early. -/
def py3bt_loop (th : SBThread) : List Nat → RunResult
  | [] => ⟨[], [], [], none, []⟩
  | i :: rest =>
    let fr := th.GetFrameAtIndex i
    let v := py3bt_visit fr
    match v.raised with
    | some e =>
      ⟨v.printed.map (fun l => (i, l)), v.evaluated.map (fun s => (i, s)), [i], some e,
        HostOp.GetFrameAtIndex i :: v.ops⟩
    | none =>
      let r := py3bt_loop th rest
      ⟨v.printed.map (fun l => (i, l)) ++ r.lines,
        v.evaluated.map (fun s => (i, s)) ++ r.evals,
        i :: r.visited, r.raised,
        (HostOp.GetFrameAtIndex i :: v.ops) ++ r.ops⟩

/-- `py3bt` from the target thread on: `num_frames = thread.GetNumFrames()`
followed by the loop over `range(num_frames - 1)`. -/
def py3bt_run (th : SBThread) : RunResult :=
  let r := py3bt_loop th (List.range (th.GetNumFrames - 1))
  { r with ops := HostOp.GetNumFrames :: r.ops }

/-- `py3bt(debugger)` with no explicit thread: select
`debugger.GetSelectedTarget().GetProcess().GetSelectedThread()` and run the
loop over its frames. -/
def py3bt (debugger : SBDebugger) : RunResult :=
  let target := debugger.GetSelectedTarget
  let thread := target.GetProcess.GetSelectedThread
  let r := py3bt_run thread
  { r with
    ops := HostOp.GetSelectedTarget :: HostOp.GetProcess :: HostOp.GetSelectedThread :: r.ops }

/-- `CMDS = [("py3-bt", "py3bt")]`. -/
def CMDS : List (String × String) := [("py3-bt", "py3bt")]

/-- The name of the module defined by the source file `lldb_pyutils.py`
(the name under which `command script import` loads it). -/
def MODULE_NAME : String := "lldb_pyutils"

/-- `__lldb_init_module(debugger, dict)`: for each `cmd` in `CMDS`, issue
`debugger.HandleCommand("command script add -f lldb_utils.{func} {cmd}")`
with `cmd = cmd[0]` and `func = cmd[1]`.  Modelled as the trace of host
operations performed. -/
def __lldb_init_module (_debugger : SBDebugger) (_dict : Unit) : List HostOp :=
  CMDS.map (fun cmd =>
    HostOp.HandleCommand ("command script add -f lldb_utils." ++ cmd.2 ++ " " ++ cmd.1))

/-- The string value stored at `co_filename` of the frame's code object,
as `py3bt` reads it on the non-null path. -/
def frameFilename (fr : SBFrame) : Option String :=
  (((fr.GetValueForVariablePath "f").GetChildMemberWithName "f_code").GetChildMemberWithName
    "co_filename").GetValue

/-- The string value stored at `co_name` of the frame's code object, as
`py3bt` reads it on the non-null path. -/
def frameName (fr : SBFrame) : Option String :=
  (((fr.GetValueForVariablePath "f").GetChildMemberWithName "f_code").GetChildMemberWithName
    "co_name").GetValue

/-- The string value of `PyFrame_GetLineNumber(f)` as evaluated by the
host for this frame. -/
def frameLineNo (fr : SBFrame) : Option String :=
  (Evaluate_LineNo fr "f").GetValue

/-- The full line `py3bt` prints for an interpreted frame on the non-null
path. -/
def frameLine (fr : SBFrame) : String :=
  mkLine fr.GetFrameID (frameFilename fr) (frameName fr) (frameLineNo fr)

/-! Concrete host values used by witnesses and counterexamples. -/

/-- A concrete `co_filename` value as the host would render it. -/
def coFilenameVal : SBValue := .mk 7 (some "test.py") []

/-- A concrete `co_name` value. -/
def coNameVal : SBValue := .mk 8 (some "main") []

/-- A concrete non-null code object with `co_filename` and `co_name`. -/
def fCodeVal : SBValue := .mk 5 none [("co_filename", coFilenameVal), ("co_name", coNameVal)]

/-- A concrete non-null frame object `f` with an `f_code` child. -/
def fVal : SBValue := .mk 4 none [("f_code", fCodeVal)]

/-- A concrete result of evaluating `PyFrame_GetLineNumber(f)`. -/
def lineVal : SBValue := .mk 0 (some "42") []

/-- A concrete native frame running `PyEval_EvalFrameEx`. -/
def evalFrame : SBFrame :=
  { GetFunctionName := "PyEval_EvalFrameEx", GetFrameID := 0,
    GetValueForVariablePath := fun _ => fVal,
    EvaluateExpression := fun _ => lineVal }

/-- A concrete native frame not running the interpreter loop. -/
def mainFrame : SBFrame :=
  { GetFunctionName := "main", GetFrameID := 1,
    GetValueForVariablePath := fun _ => SBValue.mk 0 none [],
    EvaluateExpression := fun _ => SBValue.mk 0 none [] }

/-- A concrete thread: interpreted frame at index 0, `main` at index 1. -/
def exThreadA : SBThread :=
  { GetNumFrames := 2, GetFrameAtIndex := fun i => if i == 0 then evalFrame else mainFrame }

/-- A concrete thread whose single frame is the interpreter loop. -/
def exThreadB : SBThread :=
  { GetNumFrames := 1, GetFrameAtIndex := fun _ => evalFrame }

/-- A concrete null `PyObjectPtr`. -/
def nullPtr : PyObjectPtr := ⟨SBValue.mk 0 none []⟩

/-- A concrete non-null `PyObjectPtr`. -/
def livePtr : PyObjectPtr := ⟨fVal⟩

/-- Claim C2: the code, evaluated at its one registration: calling
`__lldb_init_module` issues exactly one `HandleCommand`, registering the
command `py3-bt`, but the function it binds is `lldb_utils.py3bt`, which
is not a function path in this module (`lldb_pyutils`): the command is not
bound to this module's `py3bt` callback. -/
theorem lldb_init_module_registers_wrong_module (debugger : SBDebugger) (w : World) :
    __lldb_init_module debugger () =
      [HostOp.HandleCommand "command script add -f lldb_utils.py3bt py3-bt"]
    ∧ List.foldl applyOp w (__lldb_init_module debugger ()) =
        { w with registered := w.registered ++ ["command script add -f lldb_utils.py3bt py3-bt"] }
    ∧ "command script add -f lldb_utils.py3bt py3-bt" ≠
        "command script add -f " ++ MODULE_NAME ++ ".py3bt py3-bt" :=
  ⟨rfl, rfl, by decide⟩

/-- Claim C4: `Evaluate_PyObject_AsUTF8` and `Evaluate_LineNo` return
exactly the host result of `EvaluateExpression` on the concatenated
expression string, and depend on nothing but the host's
`EvaluateExpression`: two frames with the same evaluator get the same
results. -/
theorem evaluate_helpers_delegate (fr fr2 : SBFrame) (obj : String)
    (h : fr.EvaluateExpression = fr2.EvaluateExpression) :
    Evaluate_PyObject_AsUTF8 fr obj = fr.EvaluateExpression ("PyUnicode_AsUTF8(" ++ obj ++ ")")
    ∧ Evaluate_LineNo fr obj = fr.EvaluateExpression ("PyFrame_GetLineNumber(" ++ obj ++ ")")
    ∧ Evaluate_PyObject_AsUTF8 fr obj = Evaluate_PyObject_AsUTF8 fr2 obj
    ∧ Evaluate_LineNo fr obj = Evaluate_LineNo fr2 obj := by
  refine ⟨rfl, rfl, ?_, ?_⟩ <;> simp [Evaluate_PyObject_AsUTF8, Evaluate_LineNo, h]

/-- Witness for claim C4 at a concrete frame and expression string. -/
theorem evaluate_helpers_delegate_witness :
    Evaluate_LineNo evalFrame "f" = evalFrame.EvaluateExpression "PyFrame_GetLineNumber(f)" :=
  (evaluate_helpers_delegate evalFrame evalFrame "f" rfl).2.1

/-- Claim C8: `PyObjectPtr.field` raises `NullPyObjectPtr` exactly when
the wrapped `SBValue`'s unsigned value is 0 (that is, when `is_null` is
true); on a non-zero unsigned value it returns
`GetChildMemberWithName(name)` and never raises. -/
theorem field_raises_iff_null (p : PyObjectPtr) (name : String) :
    (p._SBValue.GetValueAsUnsigned = 0 →
      p.is_null = true ∧ p.field name = Except.error ⟨p⟩)
    ∧ (p._SBValue.GetValueAsUnsigned ≠ 0 →
      p.is_null = false ∧ p.field name = Except.ok (p._SBValue.GetChildMemberWithName name)) := by
  constructor
  · intro h
    have hn : p.is_null = true := by simp [PyObjectPtr.is_null, h]
    exact ⟨hn, by simp [PyObjectPtr.field, hn]⟩
  · intro h
    have hn : p.is_null = false := by
      simp only [PyObjectPtr.is_null, beq_eq_false_iff_ne, ne_eq]
      omega
    exact ⟨hn, by simp [PyObjectPtr.field, hn]⟩

/-- Witness for claim C8: the two behaviours of `field` at a concrete null
pointer and a concrete non-null pointer. -/
theorem field_raises_iff_null_witness :
    nullPtr.field "f_code" = Except.error ⟨nullPtr⟩
    ∧ livePtr.field "f_code" = Except.ok (livePtr._SBValue.GetChildMemberWithName "f_code") :=
  ⟨((field_raises_iff_null nullPtr "f_code").1 rfl).2,
    ((field_raises_iff_null livePtr "f_code").2 (by decide)).2⟩

/-- Claim C1 counterexample: `exThreadB` has exactly one frame, frame 0,
whose native function name is `PyEval_EvalFrameEx` (with well-formed
non-null frame data), yet `py3bt` prints nothing at all: the loop runs
over `range(num_frames - 1) = range(0)`, so the last frame is never
visited. -/
theorem py3bt_skips_last_frame_cex :
    exThreadB.GetNumFrames = 1
    ∧ is_evalframeex (exThreadB.GetFrameAtIndex 0) = true
    ∧ (py3bt_run exThreadB).lines = [] :=
  ⟨rfl, by decide, rfl⟩

/-- A frame whose native function is not `PyEval_EvalFrameEx` produces no
effect beyond reading the function name. -/
theorem py3bt_visit_of_not_eval (fr : SBFrame) (h : is_evalframeex fr = false) :
    py3bt_visit fr = ⟨[], [], none, [HostOp.GetFunctionName]⟩ := by
  simp [py3bt_visit, h]

/-- The body of the loop prints either nothing or exactly the formatted
line for the frame. -/
theorem py3bt_visit_printed_cases (fr : SBFrame) :
    (py3bt_visit fr).printed = [] ∨ (py3bt_visit fr).printed = [frameLine fr] := by
  cases hev : is_evalframeex fr with
  | false => exact Or.inl (by simp [py3bt_visit, hev])
  | true =>
    cases h1 : (PyObjectPtr.mk (fr.GetValueForVariablePath "f")).is_null with
    | true => exact Or.inl (by simp [py3bt_visit, hev, PyObjectPtr.field, h1])
    | false =>
      cases h2 : (PyObjectPtr.mk
          ((fr.GetValueForVariablePath "f").GetChildMemberWithName "f_code")).is_null with
      | true => exact Or.inl (by simp [py3bt_visit, hev, PyObjectPtr.field, h1, h2])
      | false =>
        refine Or.inr ?_
        simp [py3bt_visit, hev, PyObjectPtr.field, h1, h2, frameLine, frameFilename,
          frameName, frameLineNo]

/-- On an interpreted frame that raises no `NullPyObjectPtr`, the body
prints exactly the formatted line. -/
theorem py3bt_visit_ok_of_none (fr : SBFrame) (hev : is_evalframeex fr = true)
    (hn : (py3bt_visit fr).raised = none) :
    (py3bt_visit fr).printed = [frameLine fr] := by
  cases h1 : (PyObjectPtr.mk (fr.GetValueForVariablePath "f")).is_null with
  | true => simp [py3bt_visit, hev, PyObjectPtr.field, h1] at hn
  | false =>
    cases h2 : (PyObjectPtr.mk
        ((fr.GetValueForVariablePath "f").GetChildMemberWithName "f_code")).is_null with
    | true => simp [py3bt_visit, hev, PyObjectPtr.field, h1, h2] at hn
    | false =>
      simp [py3bt_visit, hev, PyObjectPtr.field, h1, h2, frameLine, frameFilename,
        frameName, frameLineNo]

/-- The indices the loop visits form a sublist of the index list it is
given (a raise ends the loop early). -/
theorem py3bt_loop_visited_sublist (th : SBThread) (l : List Nat) :
    List.Sublist (py3bt_loop th l).visited l := by
  induction l with
  | nil => simp [py3bt_loop]
  | cons i rest ih =>
    cases hr : (py3bt_visit (th.GetFrameAtIndex i)).raised with
    | some e =>
      simp only [py3bt_loop, hr]
      exact List.Sublist.cons₂ i (List.nil_sublist rest)
    | none =>
      simp only [py3bt_loop, hr]
      exact List.Sublist.cons₂ i ih

/-- Every printed line is tagged with an index from the list the loop was
given. -/
theorem py3bt_loop_lines_tags (th : SBThread) (l : List Nat) :
    ∀ p ∈ (py3bt_loop th l).lines, p.1 ∈ l := by
  induction l with
  | nil => simp [py3bt_loop]
  | cons i rest ih =>
    intro p hp
    cases hr : (py3bt_visit (th.GetFrameAtIndex i)).raised with
    | some e =>
      simp only [py3bt_loop, hr] at hp
      rcases List.mem_map.mp hp with ⟨s, _, rfl⟩
      exact List.mem_cons_self i rest
    | none =>
      simp only [py3bt_loop, hr] at hp
      rcases List.mem_append.mp hp with hp1 | hp2
      · rcases List.mem_map.mp hp1 with ⟨s, _, rfl⟩
        exact List.mem_cons_self i rest
      · exact List.mem_cons_of_mem i (ih p hp2)

/-- The tags of the printed lines, in print order, form a sublist of the
index list: lines come out in the order the frames are visited. -/
theorem py3bt_loop_linefst_sublist (th : SBThread) (l : List Nat) :
    List.Sublist ((py3bt_loop th l).lines.map Prod.fst) l := by
  induction l with
  | nil => simp [py3bt_loop]
  | cons i rest ih =>
    cases hr : (py3bt_visit (th.GetFrameAtIndex i)).raised with
    | some e =>
      simp only [py3bt_loop, hr]
      rcases py3bt_visit_printed_cases (th.GetFrameAtIndex i) with hp | hp <;> simp [hp]
    | none =>
      simp only [py3bt_loop, hr]
      rcases py3bt_visit_printed_cases (th.GetFrameAtIndex i) with hp | hp
      · simp only [hp, List.map_nil, List.nil_append]
        exact ih.trans (List.sublist_cons_self i rest)
      · simp only [hp, List.map_append, List.map_map, List.map_cons, List.map_nil]
        exact List.Sublist.cons₂ i ih

/-- Claim C5: `py3bt` visits each frame index at most once, in strictly
increasing index order (innermost native frame first), and the tags of the
printed lines are strictly increasing as well, so the printed lines appear
in innermost-to-outermost stack order. -/
theorem py3bt_visits_in_order (th : SBThread) :
    (py3bt_run th).visited.Pairwise (· < ·)
    ∧ (py3bt_run th).visited.Nodup
    ∧ ((py3bt_run th).lines.map Prod.fst).Pairwise (· < ·) := by
  have hv : (py3bt_run th).visited =
      (py3bt_loop th (List.range (th.GetNumFrames - 1))).visited := rfl
  have hl : (py3bt_run th).lines =
      (py3bt_loop th (List.range (th.GetNumFrames - 1))).lines := rfl
  have hpw : (List.range (th.GetNumFrames - 1)).Pairwise (· < ·) :=
    List.pairwise_lt_range _
  have h1 : (py3bt_run th).visited.Pairwise (· < ·) :=
    hv ▸ hpw.sublist (py3bt_loop_visited_sublist th _)
  refine ⟨h1, h1.imp (fun hlt => Nat.ne_of_lt hlt), ?_⟩
  exact hl ▸ hpw.sublist (py3bt_loop_linefst_sublist th _)

/-- Every host operation performed by the body of the loop is a pure
query. -/
theorem py3bt_visit_ops_readonly (fr : SBFrame) :
    ∀ op ∈ (py3bt_visit fr).ops, op.mutates = false := by
  intro op hop
  cases hev : is_evalframeex fr with
  | false =>
    simp only [py3bt_visit_of_not_eval fr hev, List.mem_singleton] at hop
    subst hop; rfl
  | true =>
    cases h1 : (PyObjectPtr.mk (fr.GetValueForVariablePath "f")).is_null with
    | true =>
      simp [py3bt_visit, hev, PyObjectPtr.field, h1] at hop
      rcases hop with rfl | rfl | rfl <;> rfl
    | false =>
      cases h2 : (PyObjectPtr.mk
          ((fr.GetValueForVariablePath "f").GetChildMemberWithName "f_code")).is_null with
      | true =>
        simp [py3bt_visit, hev, PyObjectPtr.field, h1, h2] at hop
        rcases hop with rfl | rfl | rfl | rfl | rfl <;> rfl
      | false =>
        simp [py3bt_visit, hev, PyObjectPtr.field, h1, h2] at hop
        rcases hop with rfl | rfl | rfl | rfl | rfl | rfl | rfl | rfl | rfl | rfl | rfl | rfl | rfl
          <;> rfl

/-- Every host operation performed by the loop of `py3bt` is a pure
query. -/
theorem py3bt_loop_ops_readonly (th : SBThread) (l : List Nat) :
    ∀ op ∈ (py3bt_loop th l).ops, op.mutates = false := by
  induction l with
  | nil => simp [py3bt_loop]
  | cons i rest ih =>
    intro op hop
    cases hr : (py3bt_visit (th.GetFrameAtIndex i)).raised with
    | some e =>
      simp only [py3bt_loop, hr, List.mem_cons] at hop
      rcases hop with rfl | hop
      · rfl
      · exact py3bt_visit_ops_readonly _ op hop
    | none =>
      simp only [py3bt_loop, hr, List.cons_append, List.mem_cons, List.mem_append] at hop
      rcases hop with rfl | hop | hop
      · rfl
      · exact py3bt_visit_ops_readonly _ op hop
      · exact ih op hop

/-- A trace made only of query operations leaves the world unchanged. -/
theorem foldl_applyOp_eq_self (w : World) (l : List HostOp)
    (h : ∀ op ∈ l, op.mutates = false) : List.foldl applyOp w l = w := by
  induction l generalizing w with
  | nil => rfl
  | cons op rest ih =>
    have h1 : applyOp w op = w := by
      have hm := h op (List.mem_cons_self op rest)
      cases op <;> simp_all [HostOp.mutates, applyOp]
    rw [List.foldl_cons, h1]
    exact ih w (fun o ho => h o (List.mem_cons_of_mem _ ho))

/-- Claim C6: invoking `py3bt` performs only query operations on the host,
so it leaves the whole debugger/module state — selected target and thread,
the `CMDS` binding, the registered commands — exactly as it was.  Its only
product is the returned printed output. -/
theorem py3bt_preserves_world (debugger : SBDebugger) (w : World) :
    List.foldl applyOp w (py3bt debugger).ops = w := by
  apply foldl_applyOp_eq_self
  intro op hop
  simp only [py3bt, py3bt_run, List.mem_cons] at hop
  rcases hop with rfl | rfl | rfl | rfl | hop
  · rfl
  · rfl
  · rfl
  · rfl
  · exact py3bt_loop_ops_readonly _ _ op hop

/-- The loop output depends only on the frames the host returns for the
visited indices. -/
theorem py3bt_loop_congr (th1 th2 : SBThread) :
    ∀ l : List Nat, (∀ i ∈ l, th1.GetFrameAtIndex i = th2.GetFrameAtIndex i) →
      py3bt_loop th1 l = py3bt_loop th2 l
  | [], _ => rfl
  | i :: rest, h => by
    have hi : th1.GetFrameAtIndex i = th2.GetFrameAtIndex i := h i (List.mem_cons_self i rest)
    have hrest := py3bt_loop_congr th1 th2 rest (fun k hk => h k (List.mem_cons_of_mem _ hk))
    simp only [py3bt_loop, hi, hrest]

/-- Claim C7: `py3bt` is deterministic and driven only by the host: if the
host answers every frame query identically for two threads, the two
invocations print exactly the same lines. -/
theorem py3bt_deterministic (th1 th2 : SBThread)
    (hn : th1.GetNumFrames = th2.GetNumFrames)
    (hf : ∀ i, i < th1.GetNumFrames → th1.GetFrameAtIndex i = th2.GetFrameAtIndex i) :
    (py3bt_run th1).lines = (py3bt_run th2).lines := by
  have e1 : (py3bt_run th1).lines =
      (py3bt_loop th1 (List.range (th1.GetNumFrames - 1))).lines := rfl
  have e2 : (py3bt_run th2).lines =
      (py3bt_loop th2 (List.range (th2.GetNumFrames - 1))).lines := rfl
  rw [e1, e2, ← hn,
    py3bt_loop_congr th1 th2 _ (fun i hi => hf i (by
      have := List.mem_range.mp hi
      omega))]

/-- Witness for claim C7 at a concrete thread. -/
theorem py3bt_deterministic_witness :
    (py3bt_run exThreadA).lines = (py3bt_run exThreadA).lines :=
  py3bt_deterministic exThreadA exThreadA rfl (fun _ _ => rfl)

/-- On a frame index whose native function is not `PyEval_EvalFrameEx`,
the loop contributes no printed line and no evaluated expression. -/
theorem py3bt_loop_skips (th : SBThread) (i : Nat)
    (h : is_evalframeex (th.GetFrameAtIndex i) = false) (l : List Nat) :
    (∀ p ∈ (py3bt_loop th l).lines, p.1 ≠ i)
    ∧ (∀ p ∈ (py3bt_loop th l).evals, p.1 ≠ i) := by
  induction l with
  | nil => simp [py3bt_loop]
  | cons j rest ih =>
    by_cases hji : j = i
    · subst hji
      have hv := py3bt_visit_of_not_eval _ h
      refine ⟨fun p hp => ?_, fun p hp => ?_⟩
      · simp only [py3bt_loop, hv, List.map_nil, List.nil_append] at hp
        exact ih.1 p hp
      · simp only [py3bt_loop, hv, List.map_nil, List.nil_append] at hp
        exact ih.2 p hp
    · cases hr : (py3bt_visit (th.GetFrameAtIndex j)).raised with
      | some e =>
        refine ⟨fun p hp => ?_, fun p hp => ?_⟩
        · simp only [py3bt_loop, hr] at hp
          rcases List.mem_map.mp hp with ⟨s, _, rfl⟩
          simpa using hji
        · simp only [py3bt_loop, hr] at hp
          rcases List.mem_map.mp hp with ⟨s, _, rfl⟩
          simpa using hji
      | none =>
        refine ⟨fun p hp => ?_, fun p hp => ?_⟩
        · simp only [py3bt_loop, hr, List.mem_append] at hp
          rcases hp with hp | hp
          · rcases List.mem_map.mp hp with ⟨s, _, rfl⟩
            simpa using hji
          · exact ih.1 p hp
        · simp only [py3bt_loop, hr, List.mem_append] at hp
          rcases hp with hp | hp
          · rcases List.mem_map.mp hp with ⟨s, _, rfl⟩
            simpa using hji
          · exact ih.2 p hp

/-- Claim C3: `py3bt` prints output only for interpreted frames: a frame
whose native function name is not `PyEval_EvalFrameEx` contributes no
printed line and no inferior expression evaluation. -/
theorem py3bt_ignores_other_frames (th : SBThread) (i : Nat)
    (h : is_evalframeex (th.GetFrameAtIndex i) = false) :
    (∀ p ∈ (py3bt_run th).lines, p.1 ≠ i)
    ∧ (∀ p ∈ (py3bt_run th).evals, p.1 ≠ i) :=
  py3bt_loop_skips th i h (List.range (th.GetNumFrames - 1))

/-- Witness for claim C3: in the concrete thread, the one printed line is
not tagged with the index of the `main` frame. -/
theorem py3bt_ignores_other_frames_witness :
    ((0 : Nat), frameLine evalFrame).1 ≠ 1 :=
  (py3bt_ignores_other_frames exThreadA 1 (by decide)).1
    (0, frameLine evalFrame) (by decide)

/-- When no visited frame raises, the loop prints exactly one line for a
visited interpreted frame index, tagged with that index. -/
theorem py3bt_loop_filter (th : SBThread) (i : Nat)
    (hev : is_evalframeex (th.GetFrameAtIndex i) = true) :
    ∀ l : List Nat, l.Nodup → i ∈ l →
      (∀ j ∈ l, (py3bt_visit (th.GetFrameAtIndex j)).raised = none) →
      (py3bt_loop th l).lines.filter (fun p => p.1 == i) =
        [(i, frameLine (th.GetFrameAtIndex i))]
  | [], _, hmem, _ => absurd hmem (List.not_mem_nil i)
  | j :: rest, hnd, hmem, hnr => by
    have hrj : (py3bt_visit (th.GetFrameAtIndex j)).raised = none :=
      hnr j (List.mem_cons_self j rest)
    have hloop : (py3bt_loop th (j :: rest)).lines =
        (py3bt_visit (th.GetFrameAtIndex j)).printed.map (fun s => (j, s))
          ++ (py3bt_loop th rest).lines := by
      simp only [py3bt_loop, hrj]
    rw [hloop, List.filter_append]
    rcases List.mem_cons.mp hmem with rfl | hmem'
    · rw [py3bt_visit_ok_of_none _ hev hrj]
      have hrest : (py3bt_loop th rest).lines.filter (fun p => p.1 == i) = [] := by
        rw [ List.filter_eq_nil_iff]
        intro p hp
        have hpt : p.1 ∈ rest := py3bt_loop_lines_tags th rest p hp
        have hne : p.1 ≠ i := fun hh => (List.nodup_cons.mp hnd).1 (hh ▸ hpt)
        simpa using hne
      rw [hrest]
      simp
    · have hji : j ≠ i := fun hh => (List.nodup_cons.mp hnd).1 (hh ▸ hmem')
      have hhead : ((py3bt_visit (th.GetFrameAtIndex j)).printed.map
          (fun s => (j, s))).filter (fun p => p.1 == i) = [] := by
        rw [ List.filter_eq_nil_iff]
        intro p hp
        rcases List.mem_map.mp hp with ⟨s, _, rfl⟩
        simpa using hji
      rw [hhead, List.nil_append]
      exact py3bt_loop_filter th i hev rest (List.nodup_cons.mp hnd).2 hmem'
        (fun k hk => hnr k (List.mem_cons_of_mem _ hk))

/-- Claim C1 (amended): for every frame at an index below
`GetNumFrames() - 1` whose native function name is `PyEval_EvalFrameEx`,
provided no visited frame raises `NullPyObjectPtr`, `py3bt` prints exactly
one line for that frame: `frame #<id>: <file> - <name>:<line>`. -/
theorem py3bt_prints_eval_frames (th : SBThread) (i : Nat)
    (hi : i < th.GetNumFrames - 1)
    (hev : is_evalframeex (th.GetFrameAtIndex i) = true)
    (hnr : ∀ j, j < th.GetNumFrames - 1 →
      (py3bt_visit (th.GetFrameAtIndex j)).raised = none) :
    (py3bt_run th).lines.filter (fun p => p.1 == i) =
      [(i, frameLine (th.GetFrameAtIndex i))] :=
  py3bt_loop_filter th i hev (List.range (th.GetNumFrames - 1))
    (List.nodup_range _) (List.mem_range.mpr hi)
    (fun j hj => hnr j (List.mem_range.mp hj))

/-- Witness for claim C1's amended statement at a concrete two-frame
thread. -/
theorem py3bt_prints_eval_frames_witness :
    (py3bt_run exThreadA).lines.filter (fun p => p.1 == 0) =
      [(0, frameLine (exThreadA.GetFrameAtIndex 0))] :=
  py3bt_prints_eval_frames exThreadA 0 (by decide) (by decide)
    (fun j hj => by
      have hj0 : j = 0 := Nat.lt_one_iff.mp hj
      subst hj0
      rfl)

/-- Claim C10: every line printed for a frame is the `mkLine` rendering of
the host-returned file name, function name and line number, and that
rendering replaces any falsy component (None or the empty string) by the
single character ".". -/
theorem py3bt_falsy_dot (fr : SBFrame) (line : String) (v : Option String) :
    (line ∈ (py3bt_visit fr).printed →
      line = mkLine fr.GetFrameID (frameFilename fr) (frameName fr) (frameLineNo fr))
    ∧ (pyFalsy v = true → fmt_or_dot v = ".") := by
  constructor
  · intro hmem
    rcases py3bt_visit_printed_cases fr with hp | hp <;> rw [hp] at hmem
    · simp at hmem
    · have hl := List.mem_singleton.mp hmem
      simpa [frameLine] using hl
  · intro hf
    cases v with
    | none => rfl
    | some s =>
      simp only [pyFalsy] at hf
      simp [fmt_or_dot, hf]

/-- Witness for claim C10 at a concrete frame and a falsy (missing)
value. -/
theorem py3bt_falsy_dot_witness :
    frameLine evalFrame =
      mkLine evalFrame.GetFrameID (frameFilename evalFrame) (frameName evalFrame)
        (frameLineNo evalFrame)
    ∧ fmt_or_dot none = "." :=
  ⟨(py3bt_falsy_dot evalFrame (frameLine evalFrame) none).1 (by decide),
    (py3bt_falsy_dot evalFrame (frameLine evalFrame) none).2 rfl⟩

/-- Python `find` returns -1 when the character does not occur. -/
theorem pyFind_of_not_mem (c : Char) (s : List Char) (h : c ∉ s) : pyFind c s = -1 := by
  induction s with
  | nil => rfl
  | cons x xs ih =>
    have hx : (x == c) = false := by
      simp only [beq_eq_false_iff_ne]
      intro hxc
      exact h (hxc ▸ List.mem_cons_self x xs)
    have hxs : c ∉ xs := fun hm => h (List.mem_cons_of_mem _ hm)
    norm_num [pyFind, hx, ih hxs]

/-- Python `find` returns the index of the first occurrence. -/
theorem pyFind_first (c : Char) (s : List Char) (i : Nat) (hi : i < s.length)
    (hc : s.get ⟨i, hi⟩ = c) (hb : c ∉ s.take i) : pyFind c s = i := by
  induction s generalizing i with
  | nil => simp at hi
  | cons x xs ih =>
    cases i with
    | zero =>
      have hx : x = c := hc
      simp [pyFind, hx]
    | succ k =>
      have hk : k < xs.length := Nat.lt_of_succ_lt_succ hi
      have hc2 : xs.get ⟨k, hk⟩ = c := hc
      have hb2 : c ∉ xs.take k := by
        intro hm
        exact hb (by simpa [List.take_succ_cons] using Or.inr hm)
      have hx : (x == c) = false := by
        simp only [beq_eq_false_iff_ne]
        intro hxc
        exact hb (by simp [List.take_succ_cons, hxc])
      have hr := ih k hk hc2 hb2
      simp only [pyFind, hx, Bool.false_eq_true, if_false, hr]
      rw [if_neg (by omega)]
      omega

/-- Python `rfind` returns -1 when the character does not occur. -/
theorem pyRfind_of_not_mem (c : Char) (s : List Char) (h : c ∉ s) : pyRfind c s = -1 := by
  induction s with
  | nil => rfl
  | cons x xs ih =>
    have hx : (x == c) = false := by
      simp only [beq_eq_false_iff_ne]
      intro hxc
      exact h (hxc ▸ List.mem_cons_self x xs)
    have hxs : c ∉ xs := fun hm => h (List.mem_cons_of_mem _ hm)
    norm_num [pyRfind, hx, ih hxs]

/-- Python `rfind` returns the index of the last occurrence. -/
theorem pyRfind_last (c : Char) (s : List Char) (j : Nat) (hj : j < s.length)
    (hc : s.get ⟨j, hj⟩ = c) (ha : c ∉ s.drop (j + 1)) : pyRfind c s = j := by
  induction s generalizing j with
  | nil => simp at hj
  | cons x xs ih =>
    cases j with
    | zero =>
      have hx : x = c := hc
      have hxs : c ∉ xs := by simpa using ha
      have hr := pyRfind_of_not_mem c xs hxs
      norm_num [pyRfind, hr, hx]
    | succ k =>
      have hk : k < xs.length := Nat.lt_of_succ_lt_succ hj
      have hc2 : xs.get ⟨k, hk⟩ = c := hc
      have ha2 : c ∉ xs.drop (k + 1) := by simpa using ha
      have hr := ih k hk hc2 ha2
      simp only [pyRfind, hr]
      rw [if_pos (by omega)]
      omega

/-- With no double quote in the string, `gist_extr` is the Python slice
`s[0:-1]`: the string with its last character removed. -/
theorem gist_extr_no_quote (s : List Char) (h : ('"') ∉ s) : gist_extr s = s.dropLast := by
  unfold gist_extr pySlice
  rw [pyFind_of_not_mem _ _ h, pyRfind_of_not_mem _ _ h]
  have h0 : pyNormIdx s.length (-1 + 1) = 0 := by norm_num [pyNormIdx]
  have h1 : pyNormIdx s.length (-1) = s.length - 1 := by
    simp only [pyNormIdx]
    rw [if_pos (by norm_num)]
    omega
  rw [h0, h1, List.drop_zero, ← List.dropLast_eq_take]

/-- With quotes present, `gist_extr` is the substring strictly between the
first and the last double quote. -/
theorem gist_extr_between_quotes (s : List Char) (i j : Nat) (hi : i < s.length)
    (hj : j < s.length) (hci : s.get ⟨i, hi⟩ = '"') (hbi : ('"') ∉ s.take i)
    (hcj : s.get ⟨j, hj⟩ = '"') (haj : ('"') ∉ s.drop (j + 1)) :
    gist_extr s = (s.take j).drop (i + 1) := by
  unfold gist_extr pySlice
  rw [pyFind_first _ _ i hi hci hbi, pyRfind_last _ _ j hj hcj haj]
  have h1 : pyNormIdx s.length ((i : Int) + 1) = i + 1 := by
    simp only [pyNormIdx]
    rw [if_neg (by omega)]
    have ht : ((i : Int) + 1).toNat = i + 1 := by omega
    rw [ht]
    exact Nat.min_eq_left (by omega)
  have h2 : pyNormIdx s.length ((j : Int)) = j := by
    simp only [pyNormIdx]
    rw [if_neg (by omega)]
    have ht : ((j : Int)).toNat = j := by omega
    rw [ht]
    exact Nat.min_eq_left (by omega)
  rw [h1, h2]

/-- Claim C9: `gist_extr` returns the substring strictly between the first
and the last double quote; on a string with no double quote at all it
returns the string with its last character removed (`s[0:-1]`), not the
string itself. -/
theorem gist_extr_spec (s : List Char) :
    (('"') ∉ s → gist_extr s = s.dropLast)
    ∧ (∀ (i j : Nat) (hi : i < s.length) (hj : j < s.length),
        s.get ⟨i, hi⟩ = '"' → ('"') ∉ s.take i →
        s.get ⟨j, hj⟩ = '"' → ('"') ∉ s.drop (j + 1) →
        gist_extr s = (s.take j).drop (i + 1)) :=
  ⟨fun h => gist_extr_no_quote s h,
    fun i j hi hj hci hbi hcj haj => gist_extr_between_quotes s i j hi hj hci hbi hcj haj⟩

/-- Witness for claim C9: both behaviours at concrete strings. -/
theorem gist_extr_spec_witness :
    gist_extr ['a', 'b'] = ['a']
    ∧ gist_extr ['x', '"', 'y', '"', 'z'] = ['y'] :=
  ⟨(gist_extr_spec ['a', 'b']).1 (by decide),
    (gist_extr_spec ['x', '"', 'y', '"', 'z']).2 1 3 (by decide) (by decide)
      (by decide) (by decide) (by decide) (by decide)⟩
